import Mathlib

set_option autoImplicit false

/-!
Verification of the foodgram backend core: the recipe association writer
(`RecipeCreateSerializer` / `RecipeUpdateSerializer` in `backend/api/serializers.py`),
the shopping-list aggregator (`ShoppingCartViewSet.download_shopping_cart` in
`backend/api/views.py`), and the subscription write boundary
(`SubscribeCreateDeleteSerializer`, `backend/users/models.py`).

The relational store is embedded as lists of rows; each Django/DRF operation is a
pure function on the store, failing through `Except`.
-/

namespace Foodgram

/-- `recipes.models.Ingredient`: unique name, unit of measurement. -/
structure Ingredient where
  id : Nat
  name : String
  measurement_unit : String
  deriving DecidableEq, Repr, Inhabited

/-- `recipes.models.Tag`. -/
structure Tag where
  id : Nat
  name : String
  slug : String
  deriving DecidableEq, Repr, Inhabited

/-- `recipes.models.Recipe` (base columns; M2M links live in separate tables). -/
structure Recipe where
  id : Nat
  author : Nat
  name : String
  text : String
  image : String
  cooking_time : Int
  deriving DecidableEq, Repr, Inhabited

/-- `recipes.models.IngredientInRecipe`: the through table carrying `amount`. -/
structure IngredientInRecipe where
  recipe : Nat
  ingredient : Nat
  amount : Int
  deriving DecidableEq, Repr, Inhabited

/-- The relational store: one list of rows per table.
`recipeTags` is the implicit join table behind `Recipe.tags`;
`cart` holds `ShoppingCart` rows as (user id, recipe id);
`subscriptions` holds `users.models.Subscription` rows as (user id, author id). -/
structure Store where
  users : List Nat
  ingredients : List Ingredient
  tags : List Tag
  recipes : List Recipe
  ingredientRows : List IngredientInRecipe
  recipeTags : List (Nat × Nat)
  cart : List (Nat × Nat)
  subscriptions : List (Nat × Nat)
  deriving DecidableEq, Repr, Inhabited

/-- Error taxonomy of the request layer: DRF `ValidationError` (HTTP 400),
`Http404`/`NotFound` (HTTP 404), and a database `IntegrityError` escaping a
constraint violation. -/
inductive ApiError where
  | validation
  | notFound
  | integrity
  deriving DecidableEq, Repr

instance instExceptDecEq {ε α : Type} [DecidableEq ε] [DecidableEq α] :
    DecidableEq (Except ε α) := fun a b =>
  match a, b with
  | .ok x, .ok y =>
    if h : x = y then .isTrue (by rw [h]) else .isFalse (by simp [h])
  | .error x, .error y =>
    if h : x = y then .isTrue (by rw [h]) else .isFalse (by simp [h])
  | .ok _, .error _ => .isFalse (by simp)
  | .error _, .ok _ => .isFalse (by simp)

def lookupIngredient (s : Store) (i : Nat) : Option Ingredient :=
  s.ingredients.find? (fun x => x.id == i)

def lookupTag (s : Store) (t : Nat) : Option Tag :=
  s.tags.find? (fun x => x.id == t)

def lookupRecipe (s : Store) (r : Nat) : Option Recipe :=
  s.recipes.find? (fun x => x.id == r)

/-- Deserialized request body for recipe create/update:
`ingredients` is a list of (ingredient pk, amount), `tags` a list of tag pks. -/
structure RecipeInput where
  ingredients : List (Nat × Int)
  tags : List Nat
  name : String
  text : String
  cooking_time : Int
  image : Option String
  deriving DecidableEq, Repr

/-- `validated_data` after DRF field validation: pks resolved to model instances. -/
structure ValidatedRecipeData where
  ingredients : List (Ingredient × Int)
  tags : List Tag
  name : String
  text : String
  cooking_time : Int
  image : Option String
  deriving DecidableEq, Repr

/-- Field validation of one `IngredientForRecipeSerializer` item:
`id = PrimaryKeyRelatedField(queryset=Ingredient.objects.all())` reports a missing
pk as a `ValidationError` (its `does_not_exist` failure), and
`amount = IntegerField(min_value=1)` rejects any amount below 1. -/
def resolveIngredientItem (s : Store) (p : Nat × Int) : Except ApiError (Ingredient × Int) :=
  match lookupIngredient s p.1 with
  | none => .error .validation
  | some ing => if p.2 < 1 then .error .validation else .ok (ing, p.2)

/-- `IngredientForRecipeSerializer(many=True)` over the ingredient list. -/
def resolveIngredientList (s : Store) : List (Nat × Int) → Except ApiError (List (Ingredient × Int))
  | [] => .ok []
  | p :: rest =>
    match resolveIngredientItem s p with
    | .error e => .error e
    | .ok q =>
      match resolveIngredientList s rest with
      | .error e => .error e
      | .ok qs => .ok (q :: qs)

/-- `tags = PrimaryKeyRelatedField(queryset=Tag.objects.all(), many=True)`:
a missing tag pk is a `ValidationError`. -/
def resolveTagList (s : Store) : List Nat → Except ApiError (List Tag)
  | [] => .ok []
  | t :: rest =>
    match lookupTag s t with
    | none => .error .validation
    | some tg =>
      match resolveTagList s rest with
      | .error e => .error e
      | .ok ts => .ok (tg :: ts)

/-- `RecipeCreateSerializer.validate`: rejects an empty or duplicated ingredient list
and an empty or duplicated tag list.  The source compares `len(values)` with
`len(set(values))` over the resolved instances, which is exactly a `Nodup` test. -/
def validateRecipeData (vd : ValidatedRecipeData) : Except ApiError ValidatedRecipeData :=
  if vd.ingredients.isEmpty then .error .validation
  else if ¬ (vd.ingredients.map (fun q => q.1)).Nodup then .error .validation
  else if vd.tags.isEmpty then .error .validation
  else if ¬ vd.tags.Nodup then .error .validation
  else .ok vd

/-- `serializer.is_valid()` for `RecipeUpdateSerializer`: field validation
(pk resolution, `min_value` bounds, `cooking_time = IntegerField(min_value=1)`)
followed by the serializer's `validate`. -/
def runValidation (s : Store) (inp : RecipeInput) : Except ApiError ValidatedRecipeData :=
  match resolveIngredientList s inp.ingredients with
  | .error e => .error e
  | .ok ings =>
    match resolveTagList s inp.tags with
    | .error e => .error e
    | .ok ts =>
      if inp.cooking_time < 1 then .error .validation
      else
        validateRecipeData
          { ingredients := ings, tags := ts, name := inp.name, text := inp.text,
            cooking_time := inp.cooking_time, image := inp.image }

/-- The base-field assignments of `RecipeUpdateSerializer.update`: name, text and
cooking time are overwritten; the image only when `validated_data.get('image')`
is present. -/
def setRecipeFields (s : Store) (rid : Nat) (vd : ValidatedRecipeData) : Store :=
  { s with recipes := s.recipes.map (fun r =>
      if r.id == rid then
        { r with name := vd.name, text := vd.text, cooking_time := vd.cooking_time,
                 image := match vd.image with | some im => im | none => r.image }
      else r) }

/-- `instance.tags.set(validated_data['tags'])`: replaces the recipe's rows of the
tag join table; the database's foreign key requires every tag to exist. -/
def setRecipeTags (s : Store) (rid : Nat) (ts : List Tag) : Except ApiError Store :=
  if ts.all (fun t => (lookupTag s t.id).isSome) then
    .ok { s with recipeTags :=
            s.recipeTags.filter (fun p => p.1 != rid) ++ ts.map (fun t => (rid, t.id)) }
  else .error .integrity

/-- `instance.ingredients.clear()`: deletes every through row of the recipe. -/
def clearRecipeIngredients (s : Store) (rid : Nat) : Store :=
  { s with ingredientRows := s.ingredientRows.filter (fun r => r.recipe != rid) }

/-- `IngredientInRecipe.objects.create(...)`: inserts one through row; the database
enforces the foreign key to `Ingredient` and the `unique_recipe_ingredient`
constraint. -/
def createIngredientRow (s : Store) (rid iid : Nat) (amt : Int) : Except ApiError Store :=
  if (lookupIngredient s iid).isNone then .error .integrity
  else if s.ingredientRows.any (fun r => r.recipe == rid && r.ingredient == iid) then
    .error .integrity
  else .ok { s with ingredientRows := s.ingredientRows ++ [⟨rid, iid, amt⟩] }

/-- The `for ingredient in validated_data['ingredients']` loop of creates. -/
def createIngredientRows (s : Store) (rid : Nat) :
    List (Ingredient × Int) → Except ApiError Store
  | [] => .ok s
  | q :: rest =>
    match createIngredientRow s rid q.1.id q.2 with
    | .error e => .error e
    | .ok s' => createIngredientRows s' rid rest

/-- The statements inside `transaction.atomic()` of `RecipeUpdateSerializer.update`,
in source order: base fields, `tags.set`, `ingredients.clear()`, then one create
per supplied pair. -/
def recipeUpdateBody (s : Store) (rid : Nat) (vd : ValidatedRecipeData) :
    Except ApiError Store :=
  match setRecipeTags (setRecipeFields s rid vd) rid vd.tags with
  | .error e => .error e
  | .ok s2 => createIngredientRows (clearRecipeIngredients s2 rid) rid vd.ingredients

/-- `RecipeViewSet.partial_update`: `get_object_or_404(Recipe, id=pk)` (404 on a
missing recipe), `serializer.is_valid(raise_exception=True)`, then the atomic
update body. -/
def recipeUpdateCall (s : Store) (rid : Nat) (inp : RecipeInput) : Except ApiError Store :=
  match lookupRecipe s rid with
  | none => .error .notFound
  | some _ =>
    match runValidation s inp with
    | .error e => .error e
    | .ok vd => recipeUpdateBody s rid vd

/-- The store the database holds once the call returns: validation errors occur
before any write, and a failure inside the body aborts `transaction.atomic()`,
so every error path leaves the prior store. -/
def storeAfterUpdateCall (s : Store) (rid : Nat) (inp : RecipeInput) : Store :=
  match recipeUpdateCall s rid inp with
  | .ok s' => s'
  | .error _ => s

/-- One entry of the aggregation dict of `download_shopping_cart`: the key is the
ingredient name, the value its running amount and unit.  The Python dict keeps
insertion order, so the dict is a list of entries ordered by first occurrence. -/
structure CartEntry where
  name : String
  unit : String
  amount : Int
  deriving DecidableEq, Repr, Inhabited

/-- The body of the inner loop of `download_shopping_cart`: if the name is already
a key, add the row amount to its entry, otherwise append a fresh entry. -/
def addCartIngredient (acc : List CartEntry) (nm un : String) (amt : Int) : List CartEntry :=
  if acc.any (fun e => e.name == nm) then
    acc.map (fun e => if e.name == nm then { e with amount := e.amount + amt } else e)
  else acc ++ [⟨nm, un, amt⟩]

/-- `item.recipe.ingredients.all()`: the distinct ingredients of a recipe, read
through the join table (rows whose foreign key resolves). -/
def recipeIngredientObjs (rows : List IngredientInRecipe) (ings : List Ingredient)
    (rid : Nat) : List Ingredient :=
  (rows.filter (fun r => r.recipe == rid)).filterMap
    (fun r => ings.find? (fun x => x.id == r.ingredient))

/-- `item.recipe.ingredients_in_recipe.get(ingredient=ingredient).amount`. -/
def rowAmount (rows : List IngredientInRecipe) (rid iid : Nat) : Int :=
  match rows.find? (fun r => r.recipe == rid && r.ingredient == iid) with
  | some r => r.amount
  | none => 0

/-- The inner loop of `download_shopping_cart` for one cart item: each ingredient
of the recipe is merged into the dict with its through-row amount. -/
def mergeRecipe (rows : List IngredientInRecipe) (ings : List Ingredient)
    (acc : List CartEntry) (rid : Nat) : List CartEntry :=
  (recipeIngredientObjs rows ings rid).foldl
    (fun acc ing =>
      addCartIngredient acc ing.name ing.measurement_unit (rowAmount rows rid ing.id))
    acc

/-- The aggregation loop of `download_shopping_cart`, over the relevant tables:
for each cart row of the user, for each ingredient of its recipe, merge the
through-row amount into the dict. -/
def aggregateCart (cart : List (Nat × Nat)) (rows : List IngredientInRecipe)
    (ings : List Ingredient) (u : Nat) : List CartEntry :=
  (cart.filter (fun p => p.1 == u)).foldl
    (fun acc item => mergeRecipe rows ings acc item.2)
    []

/-- The amount the aggregation dict holds under a name, 0 when absent. -/
def amountOf (l : List CartEntry) (n : String) : Int :=
  match l.find? (fun e => e.name == n) with
  | some e => e.amount
  | none => 0

/-- Whether the aggregation dict holds an entry under a name. -/
def hasName (l : List CartEntry) (n : String) : Bool :=
  l.any (fun e => e.name == n)

/-- Whether a through row's ingredient resolves to the given name. -/
def rowHasName (ings : List Ingredient) (r : IngredientInRecipe) (n : String) : Bool :=
  match ings.find? (fun x => x.id == r.ingredient) with
  | some ing => ing.name == n
  | none => false

/-- Exact integer sum of the amounts of one recipe's through rows whose
ingredient bears the given name. -/
def recipeNameSum (rows : List IngredientInRecipe) (ings : List Ingredient)
    (rid : Nat) (n : String) : Int :=
  (((rows.filter (fun r => r.recipe == rid)).filter
      (fun r => rowHasName ings r n)).map (fun r => r.amount)).sum

/-- The reference value of the shopping-list aggregation: per-recipe sums added
over the user's cart rows. -/
def cartNameSum (cart : List (Nat × Nat)) (rows : List IngredientInRecipe)
    (ings : List Ingredient) (u : Nat) (n : String) : Int :=
  ((cart.filter (fun p => p.1 == u)).map
      (fun item => recipeNameSum rows ings item.2 n)).sum

/-- Running total contributed by a list of ingredient objects of one recipe. -/
def ingListSum (rows : List IngredientInRecipe) (rid : Nat) (n : String) :
    List Ingredient → Int
  | [] => 0
  | ing :: rest =>
    (if ing.name == n then rowAmount rows rid ing.id else 0) +
      ingListSum rows rid n rest

/-- The through-table uniqueness constraint `unique_recipe_ingredient`. -/
def RowsUnique (rows : List IngredientInRecipe) : Prop :=
  ∀ r1 ∈ rows, ∀ r2 ∈ rows,
    r1.recipe = r2.recipe → r1.ingredient = r2.ingredient → r1 = r2

/-- The shopping-list aggregation for a user, as a function of the store. -/
def buildShoppingList (s : Store) (u : Nat) : List CartEntry :=
  aggregateCart s.cart s.ingredientRows s.ingredients u

/-- One rendered line: the f-string of the source, `name - amount unit`. -/
def entryLine (e : CartEntry) : String :=
  e.name ++ " - " ++ toString e.amount ++ " " ++ e.unit

/-- `'\n'.join(...)` over the rendered lines. -/
def shoppingListText (l : List CartEntry) : String :=
  String.intercalate "\n" (l.map entryLine)

/-- The two response shapes of `download_shopping_cart`: the 404 JSON body for an
empty cart, or the plain-text file attachment. -/
inductive DownloadResult where
  | notFoundResp (detail : String)
  | fileResp (content : String)
  deriving DecidableEq, Repr

/-- `ShoppingCartViewSet.download_shopping_cart`: an empty cart short-circuits to
a 404 response; otherwise the aggregation runs and the rendered text is returned
as a file. -/
def download_shopping_cart (s : Store) (u : Nat) : DownloadResult :=
  if (s.cart.filter (fun p => p.1 == u)).isEmpty then
    .notFoundResp "Ваш список покупок пуст"
  else
    .fileResp (shoppingListText (buildShoppingList s u))

/-- `SubscribeCreateDeleteSerializer.validate` on POST:
`get_object_or_404(CustomUser, id=author_id)` (404 on a missing author), then a
`ValidationError` on self-subscription or on an already-existing subscription. -/
def subscribeValidate (s : Store) (uid aid : Nat) : Except ApiError Unit :=
  match s.users.find? (fun x => x == aid) with
  | none => .error .notFound
  | some author =>
    if author == uid then .error .validation
    else if s.subscriptions.any (fun p => p.1 == uid && p.2 == aid) then .error .validation
    else .ok ()

/-- `SubscriptionViewSet.subscribe`: validate, then
`Subscription.objects.create(user=..., author_id=...)`. -/
def subscribe (s : Store) (uid aid : Nat) : Except ApiError Store :=
  match subscribeValidate s uid aid with
  | .error e => .error e
  | .ok _ => .ok { s with subscriptions := s.subscriptions ++ [(uid, aid)] }

/-- `SubscriptionViewSet.unsubscribe`: the DELETE branch of `validate` raises a
`ValidationError` when no such subscription exists, otherwise
`Subscription.objects.get(user=..., author_id=...).delete()` removes the row. -/
def unsubscribe (s : Store) (uid aid : Nat) : Except ApiError Store :=
  match s.users.find? (fun x => x == aid) with
  | none => .error .notFound
  | some _ =>
    if s.subscriptions.any (fun p => p.1 == uid && p.2 == aid) then
      .ok { s with subscriptions := s.subscriptions.filter (fun p => !(p.1 == uid && p.2 == aid)) }
    else .error .validation

/-- The subscription-table invariant claimed by the spec: at most one row per
(subscriber, author) pair and no self-subscription row. -/
def SubscriptionInvariant (s : Store) : Prop :=
  s.subscriptions.Nodup ∧ ∀ p ∈ s.subscriptions, p.1 ≠ p.2

/-- Stores reachable through the subscription write boundary: an initial store
with no subscription rows, the subscribe/unsubscribe operations, and any
operation that does not touch the subscription table. -/
inductive SubReachable : Store → Prop where
  | init (s : Store) : s.subscriptions = [] → SubReachable s
  | subscribeStep (s s' : Store) (uid aid : Nat) :
      SubReachable s → subscribe s uid aid = .ok s' → SubReachable s'
  | unsubscribeStep (s s' : Store) (uid aid : Nat) :
      SubReachable s → unsubscribe s uid aid = .ok s' → SubReachable s'
  | frame (s s' : Store) :
      SubReachable s → s'.subscriptions = s.subscriptions → SubReachable s'

/-! ### Concrete fixtures -/

def sampleStore : Store :=
  { users := [1, 2]
  , ingredients := [⟨1, "Flour", "g"⟩, ⟨2, "Sugar", "g"⟩]
  , tags := [⟨1, "breakfast", "breakfast"⟩, ⟨2, "dinner", "dinner"⟩]
  , recipes := [⟨1, 1, "Pancakes", "Mix and fry", "recipes/images/p.png", 20⟩]
  , ingredientRows := [⟨1, 1, 200⟩]
  , recipeTags := [(1, 1)]
  , cart := []
  , subscriptions := [] }

def sampleInput1 : RecipeInput :=
  { ingredients := [(2, 150)], tags := [2], name := "Updated", text := "New text",
    cooking_time := 5, image := none }

def sampleInput2 : RecipeInput :=
  { ingredients := [(1, 7)], tags := [1], name := "Twice", text := "Again",
    cooking_time := 3, image := some "recipes/images/new.png" }

def sampleBadTagInput : RecipeInput :=
  { ingredients := [(1, 5)], tags := [99], name := "Bad", text := "B",
    cooking_time := 2, image := none }

def sampleDupInput : RecipeInput :=
  { ingredients := [(1, 5), (1, 3)], tags := [1], name := "Dup", text := "D",
    cooking_time := 2, image := none }

def sampleMissingIngInput : RecipeInput :=
  { ingredients := [(99, 5)], tags := [1], name := "Miss", text := "M",
    cooking_time := 2, image := none }

/-- Two recipes that both use "Flour" with amounts 200 and 150, both in user 7's
cart; "Sugar" is reference data used by no cart recipe. -/
def flourStore : Store :=
  { users := [7]
  , ingredients := [⟨1, "Flour", "g"⟩, ⟨2, "Sugar", "g"⟩]
  , tags := []
  , recipes := [⟨1, 7, "Bread", "Bake", "recipes/images/b.png", 60⟩,
                ⟨2, 7, "Cake", "Bake more", "recipes/images/c.png", 45⟩]
  , ingredientRows := [⟨1, 1, 200⟩, ⟨2, 1, 150⟩]
  , recipeTags := []
  , cart := [(7, 1), (7, 2)]
  , subscriptions := [] }

/-- Recipe 1 uses Flour, recipe 2 uses Sugar; user 7's cart holds both recipes,
its rows listed in one of the two orders the unordered queryset
`ShoppingCart.objects.filter(user=user)` may return them in. -/
def orderStoreA : Store :=
  { users := [7]
  , ingredients := [⟨1, "Flour", "g"⟩, ⟨2, "Sugar", "g"⟩]
  , tags := []
  , recipes := [⟨1, 7, "Bread", "Bake", "recipes/images/b.png", 60⟩,
                ⟨2, 7, "Cake", "Bake more", "recipes/images/c.png", 45⟩]
  , ingredientRows := [⟨1, 1, 200⟩, ⟨2, 2, 150⟩]
  , recipeTags := []
  , cart := [(7, 1), (7, 2)]
  , subscriptions := [] }

/-- The same stored rows with the cart in the other iteration order. -/
def orderStoreB : Store :=
  { orderStoreA with cart := [(7, 2), (7, 1)] }

def subStore : Store :=
  { users := [1, 2, 3]
  , ingredients := []
  , tags := []
  , recipes := []
  , ingredientRows := []
  , recipeTags := []
  , cart := []
  , subscriptions := [] }

def subStore1 : Store :=
  { subStore with subscriptions := [(1, 2)] }

/-! ### Facts about the validation pipeline -/

theorem resolveIngredientItem_error (s : Store) (p : Nat × Int) (e : ApiError)
    (h : resolveIngredientItem s p = .error e) : e = ApiError.validation := by
  unfold resolveIngredientItem at h
  cases hl : lookupIngredient s p.1 with
  | none => simp only [hl] at h; exact ((Except.error.injEq _ _).mp h).symm
  | some ing =>
    simp only [hl] at h
    split at h
    · exact ((Except.error.injEq _ _).mp h).symm
    · cases h

theorem resolveIngredientList_error (s : Store) (l : List (Nat × Int)) (e : ApiError)
    (h : resolveIngredientList s l = .error e) : e = ApiError.validation := by
  induction l generalizing e with
  | nil => simp [resolveIngredientList] at h
  | cons p rest ih =>
    cases hi : resolveIngredientItem s p with
    | error e' =>
      simp only [resolveIngredientList, hi] at h
      injection h with h2
      subst h2
      exact resolveIngredientItem_error s p _ hi
    | ok q =>
      cases hr : resolveIngredientList s rest with
      | error e' =>
        simp only [resolveIngredientList, hi, hr] at h
        injection h with h2
        subst h2
        exact ih _ hr
      | ok qs => simp [resolveIngredientList, hi, hr] at h

theorem resolveIngredientItem_ok (s : Store) (p : Nat × Int) (q : Ingredient × Int)
    (h : resolveIngredientItem s p = .ok q) :
    lookupIngredient s p.1 = some q.1 ∧ q.2 = p.2 ∧ 1 ≤ p.2 := by
  unfold resolveIngredientItem at h
  cases hl : lookupIngredient s p.1 with
  | none => simp [hl] at h
  | some ing =>
    simp only [hl] at h
    split at h
    · cases h
    · cases h
      exact ⟨rfl, rfl, by omega⟩

theorem resolveIngredientList_ok_map (s : Store) (l : List (Nat × Int))
    (rs : List (Ingredient × Int)) (h : resolveIngredientList s l = .ok rs) :
    rs.map (fun q => (q.1.id, q.2)) = l := by
  induction l generalizing rs with
  | nil =>
    simp only [resolveIngredientList] at h
    cases h
    rfl
  | cons p rest ih =>
    cases hi : resolveIngredientItem s p with
    | error e => simp [resolveIngredientList, hi] at h
    | ok q =>
      cases hr : resolveIngredientList s rest with
      | error e => simp [resolveIngredientList, hi, hr] at h
      | ok qs =>
        simp only [resolveIngredientList, hi, hr] at h
        cases h
        obtain ⟨hl, ha, _⟩ := resolveIngredientItem_ok s p q hi
        have hid : q.1.id = p.1 := by
          have := List.find?_some hl
          simpa [lookupIngredient] using (by simpa using List.find?_some hl)
        simp only [List.map_cons, ih qs hr, hid, ha]

theorem resolveIngredientList_ok_getD (s : Store) (l : List (Nat × Int))
    (rs : List (Ingredient × Int)) (h : resolveIngredientList s l = .ok rs) :
    rs = l.map (fun p => ((lookupIngredient s p.1).getD default, p.2)) := by
  induction l generalizing rs with
  | nil =>
    simp only [resolveIngredientList] at h
    cases h
    rfl
  | cons p rest ih =>
    cases hi : resolveIngredientItem s p with
    | error e => simp [resolveIngredientList, hi] at h
    | ok q =>
      cases hr : resolveIngredientList s rest with
      | error e => simp [resolveIngredientList, hi, hr] at h
      | ok qs =>
        simp only [resolveIngredientList, hi, hr] at h
        cases h
        obtain ⟨hl, ha, _⟩ := resolveIngredientItem_ok s p q hi
        simp only [List.map_cons, hl, Option.getD_some, ← ih qs hr]
        rw [← ha, Prod.mk.eta]

theorem resolveIngredientList_ok_amounts (s : Store) (l : List (Nat × Int))
    (rs : List (Ingredient × Int)) (h : resolveIngredientList s l = .ok rs) :
    ∀ p ∈ l, 1 ≤ p.2 := by
  induction l generalizing rs with
  | nil => intro p hp; cases hp
  | cons p rest ih =>
    cases hi : resolveIngredientItem s p with
    | error e => simp [resolveIngredientList, hi] at h
    | ok q =>
      cases hr : resolveIngredientList s rest with
      | error e => simp [resolveIngredientList, hi, hr] at h
      | ok qs =>
        intro x hx
        rcases List.mem_cons.mp hx with hx | hx
        · subst hx
          exact (resolveIngredientItem_ok s x q hi).2.2
        · exact ih qs hr x hx

theorem resolveIngredientList_ok_lookup (s : Store) (l : List (Nat × Int))
    (rs : List (Ingredient × Int)) (h : resolveIngredientList s l = .ok rs) :
    ∀ p ∈ l, (lookupIngredient s p.1).isSome := by
  induction l generalizing rs with
  | nil => intro p hp; cases hp
  | cons p rest ih =>
    cases hi : resolveIngredientItem s p with
    | error e => simp [resolveIngredientList, hi] at h
    | ok q =>
      cases hr : resolveIngredientList s rest with
      | error e => simp [resolveIngredientList, hi, hr] at h
      | ok qs =>
        intro x hx
        rcases List.mem_cons.mp hx with hx | hx
        · subst hx
          simp [(resolveIngredientItem_ok s x q hi).1]
        · exact ih qs hr x hx

theorem resolveTagList_error (s : Store) (l : List Nat) (e : ApiError)
    (h : resolveTagList s l = .error e) : e = ApiError.validation := by
  induction l generalizing e with
  | nil => simp [resolveTagList] at h
  | cons t rest ih =>
    cases hl : lookupTag s t with
    | none =>
      simp only [resolveTagList, hl] at h
      injection h with h2
      exact h2.symm
    | some tg =>
      cases hr : resolveTagList s rest with
      | error e' =>
        simp only [resolveTagList, hl, hr] at h
        injection h with h2
        subst h2
        exact ih _ hr
      | ok ts => simp [resolveTagList, hl, hr] at h

theorem resolveTagList_ok_map (s : Store) (l : List Nat) (ts : List Tag)
    (h : resolveTagList s l = .ok ts) : ts.map (fun t => t.id) = l := by
  induction l generalizing ts with
  | nil =>
    simp only [resolveTagList] at h
    cases h
    rfl
  | cons t rest ih =>
    cases hl : lookupTag s t with
    | none => simp [resolveTagList, hl] at h
    | some tg =>
      cases hr : resolveTagList s rest with
      | error e => simp [resolveTagList, hl, hr] at h
      | ok ts' =>
        simp only [resolveTagList, hl, hr] at h
        cases h
        have hid : tg.id = t := by
          have h2 := List.find?_some (p := fun x : Tag => x.id == t)
            (by simpa [lookupTag] using hl)
          simpa using h2
        simp only [List.map_cons, hid, ih ts' hr]

theorem resolveTagList_ok_getD (s : Store) (l : List Nat) (ts : List Tag)
    (h : resolveTagList s l = .ok ts) :
    ts = l.map (fun t => (lookupTag s t).getD default) := by
  induction l generalizing ts with
  | nil =>
    simp only [resolveTagList] at h
    cases h
    rfl
  | cons t rest ih =>
    cases hl : lookupTag s t with
    | none => simp [resolveTagList, hl] at h
    | some tg =>
      cases hr : resolveTagList s rest with
      | error e => simp [resolveTagList, hl, hr] at h
      | ok ts' =>
        simp only [resolveTagList, hl, hr] at h
        cases h
        simp only [List.map_cons, hl, Option.getD_some, ih ts' hr]

theorem resolveTagList_ok_lookup (s : Store) (l : List Nat) (ts : List Tag)
    (h : resolveTagList s l = .ok ts) : ∀ t ∈ l, (lookupTag s t).isSome := by
  induction l generalizing ts with
  | nil => intro t ht; cases ht
  | cons t rest ih =>
    cases hl : lookupTag s t with
    | none => simp [resolveTagList, hl] at h
    | some tg =>
      cases hr : resolveTagList s rest with
      | error e => simp [resolveTagList, hl, hr] at h
      | ok ts' =>
        intro x hx
        rcases List.mem_cons.mp hx with hx | hx
        · subst hx; simp [hl]
        · exact ih ts' hr x hx

theorem validateRecipeData_ok (vd vd' : ValidatedRecipeData)
    (h : validateRecipeData vd = .ok vd') :
    vd' = vd ∧ vd.ingredients ≠ [] ∧ (vd.ingredients.map (fun q => q.1)).Nodup ∧
      vd.tags ≠ [] ∧ vd.tags.Nodup := by
  unfold validateRecipeData at h
  split at h
  · cases h
  · split at h
    · cases h
    · split at h
      · cases h
      · split at h
        · cases h
        · cases h
          refine ⟨rfl, ?_, by tauto, ?_, by tauto⟩
          · simpa [List.isEmpty_iff] using (by assumption : ¬ vd.ingredients.isEmpty = true)
          · simpa [List.isEmpty_iff] using (by assumption : ¬ vd.tags.isEmpty = true)

/-- Everything `serializer.is_valid()` guarantees on success, stated on the raw
input: both pk lists resolve, the ingredient list is non-empty with distinct pks
and amounts at least 1, the tag list is non-empty with distinct pks, the cooking
time is at least 1, and the validated base fields are the input's. -/
theorem runValidation_ok (s : Store) (inp : RecipeInput) (vd : ValidatedRecipeData)
    (h : runValidation s inp = .ok vd) :
    resolveIngredientList s inp.ingredients = .ok vd.ingredients ∧
      resolveTagList s inp.tags = .ok vd.tags ∧
      inp.ingredients ≠ [] ∧ (inp.ingredients.map Prod.fst).Nodup ∧
      (∀ p ∈ inp.ingredients, 1 ≤ p.2) ∧
      inp.tags ≠ [] ∧ inp.tags.Nodup ∧ 1 ≤ inp.cooking_time ∧
      vd.name = inp.name ∧ vd.text = inp.text ∧
      vd.cooking_time = inp.cooking_time ∧ vd.image = inp.image := by
  unfold runValidation at h
  cases hi : resolveIngredientList s inp.ingredients with
  | error e => simp [hi] at h
  | ok ings =>
    cases ht : resolveTagList s inp.tags with
    | error e => simp [hi, ht] at h
    | ok ts =>
      simp only [hi, ht] at h
      split at h
      · cases h
      · obtain ⟨hvd, hne, hnd, htne, htnd⟩ := validateRecipeData_ok _ _ h
        subst hvd
        have hmap := resolveIngredientList_ok_map s inp.ingredients ings hi
        have hgetD := resolveIngredientList_ok_getD s inp.ingredients ings hi
        have htmap := resolveTagList_ok_map s inp.tags ts ht
        have htgetD := resolveTagList_ok_getD s inp.tags ts ht
        refine ⟨rfl, rfl, ?_, ?_, resolveIngredientList_ok_amounts s _ _ hi, ?_, ?_, by omega,
          rfl, rfl, rfl, rfl⟩
        · intro hnil
          rw [hnil] at hmap
          simp only [List.map_eq_nil_iff] at hmap
          exact hne hmap
        · have : ings.map (fun q => q.1) =
              (inp.ingredients.map Prod.fst).map
                (fun i => (lookupIngredient s i).getD default) := by
            rw [hgetD, List.map_map, List.map_map]
            rfl
          rw [this] at hnd
          exact hnd.of_map _
        · intro hnil
          rw [hnil] at htmap
          simp only [List.map_eq_nil_iff] at htmap
          exact htne htmap
        · have : ts = inp.tags.map (fun t => (lookupTag s t).getD default) := htgetD
          rw [this] at htnd
          exact htnd.of_map _

theorem runValidation_error (s : Store) (inp : RecipeInput) (e : ApiError)
    (h : runValidation s inp = .error e) : e = ApiError.validation := by
  unfold runValidation at h
  cases hi : resolveIngredientList s inp.ingredients with
  | error e' =>
    simp only [hi] at h
    injection h with h2
    subst h2
    exact resolveIngredientList_error s _ _ hi
  | ok ings =>
    cases ht : resolveTagList s inp.tags with
    | error e' =>
      simp only [hi, ht] at h
      injection h with h2
      subst h2
      exact resolveTagList_error s _ _ ht
    | ok ts =>
      simp only [hi, ht] at h
      split at h
      · injection h with h2; exact h2.symm
      · unfold validateRecipeData at h
        split at h
        · injection h with h2; exact h2.symm
        · split at h
          · injection h with h2; exact h2.symm
          · split at h
            · injection h with h2; exact h2.symm
            · split at h
              · injection h with h2; exact h2.symm
              · cases h

/-! ### Facts about the update body -/

theorem setRecipeTags_ok (s : Store) (rid : Nat) (ts : List Tag) (s' : Store)
    (h : setRecipeTags s rid ts = .ok s') :
    s' = { s with recipeTags :=
        s.recipeTags.filter (fun p => p.1 != rid) ++ ts.map (fun t => (rid, t.id)) } := by
  unfold setRecipeTags at h
  split at h
  · cases h; rfl
  · cases h

theorem createIngredientRow_ok (s : Store) (rid iid : Nat) (amt : Int) (s' : Store)
    (h : createIngredientRow s rid iid amt = .ok s') :
    s' = { s with ingredientRows := s.ingredientRows ++ [⟨rid, iid, amt⟩] } := by
  unfold createIngredientRow at h
  split at h
  · cases h
  · split at h
    · cases h
    · cases h; rfl

theorem createIngredientRows_ok (s : Store) (rid : Nat) (l : List (Ingredient × Int))
    (s' : Store) (h : createIngredientRows s rid l = .ok s') :
    s' = { s with ingredientRows :=
        s.ingredientRows ++ l.map (fun q => ⟨rid, q.1.id, q.2⟩) } := by
  induction l generalizing s with
  | nil =>
    simp only [createIngredientRows] at h
    cases h
    simp
  | cons q rest ih =>
    simp only [createIngredientRows] at h
    cases hc : createIngredientRow s rid q.1.id q.2 with
    | error e => rw [hc] at h; cases h
    | ok s1 =>
      rw [hc] at h
      have h1 := createIngredientRow_ok _ _ _ _ _ hc
      have h2 := ih s1 h
      subst h1
      rw [h2]
      simp

/-- Full characterization of a successful `partial_update`: the resulting store
rewrites the recipe's base row, replaces its tag join rows by the validated tags,
and replaces its through rows by the validated (ingredient, amount) pairs. -/
theorem recipeUpdateCall_ok (s : Store) (rid : Nat) (inp : RecipeInput) (s' : Store)
    (h : recipeUpdateCall s rid inp = .ok s') :
    ∃ vd, runValidation s inp = .ok vd ∧
      s' = { s with
        recipes := s.recipes.map (fun r =>
          if r.id == rid then
            { r with name := vd.name, text := vd.text, cooking_time := vd.cooking_time,
                     image := match vd.image with | some im => im | none => r.image }
          else r),
        recipeTags :=
          s.recipeTags.filter (fun p => p.1 != rid) ++ vd.tags.map (fun t => (rid, t.id)),
        ingredientRows :=
          s.ingredientRows.filter (fun r => r.recipe != rid) ++
            vd.ingredients.map (fun q => ⟨rid, q.1.id, q.2⟩) } := by
  unfold recipeUpdateCall at h
  cases hrec : lookupRecipe s rid with
  | none => simp [hrec] at h
  | some r =>
    simp only [hrec] at h
    cases hv : runValidation s inp with
    | error e => simp [hv] at h
    | ok vd =>
      simp only [hv] at h
      refine ⟨vd, rfl, ?_⟩
      unfold recipeUpdateBody at h
      cases hst : setRecipeTags (setRecipeFields s rid vd) rid vd.tags with
      | error e => simp [hst] at h
      | ok s2 =>
        simp only [hst] at h
        have h2 := setRecipeTags_ok _ _ _ _ hst
        have h3 := createIngredientRows_ok _ _ _ _ h
        rw [h3, h2]
        simp [setRecipeFields, clearRecipeIngredients]

/-- C1 for a single successful call. -/
theorem recipeUpdateCall_ok_assoc (s : Store) (rid : Nat) (inp : RecipeInput) (s' : Store)
    (h : recipeUpdateCall s rid inp = .ok s') :
    s'.ingredientRows.filter (fun r => r.recipe == rid) =
        inp.ingredients.map (fun p => ⟨rid, p.1, p.2⟩) ∧
      s'.recipeTags.filter (fun p => p.1 == rid) = inp.tags.map (fun t => (rid, t)) := by
  obtain ⟨vd, hv, hs⟩ := recipeUpdateCall_ok s rid inp s' h
  obtain ⟨hi, ht, -, -, -, -, -, -, -, -, -, -⟩ := runValidation_ok s inp vd hv
  have hmap := resolveIngredientList_ok_map s inp.ingredients vd.ingredients hi
  have htmap := resolveTagList_ok_map s inp.tags vd.tags ht
  subst hs
  constructor
  · rw [← hmap]
    simp only [List.filter_append, List.filter_filter]
    rw [List.filter_eq_nil_iff.mpr (fun r _ => by simp), List.nil_append]
    rw [List.filter_map]
    have : (fun (r : IngredientInRecipe) => r.recipe == rid) ∘
        (fun (q : Ingredient × Int) => (⟨rid, q.1.id, q.2⟩ : IngredientInRecipe)) =
        fun _ => true := by
      funext q; simp
    rw [this, List.filter_true, List.map_map]
    rfl
  · rw [← htmap]
    simp only [List.filter_append, List.filter_filter]
    rw [List.filter_eq_nil_iff.mpr (fun p _ => by simp), List.nil_append]
    rw [List.filter_map]
    have : (fun (p : Nat × Nat) => p.1 == rid) ∘
        (fun (t : Tag) => ((rid, t.id) : Nat × Nat)) = fun _ => true := by
      funext t; simp
    rw [this, List.filter_true, List.map_map]
    rfl

/-! ### Claim theorems: association writer -/

/-- C1: after a successful recipe update, the recipe's through rows and tag join
rows are exactly the supplied (ingredient, amount) pairs and tag references, and
a second successful call leaves exactly the second input's associations, never a
merge of both. -/
theorem recipe_update_replaces_associations (s : Store) (rid : Nat) (inp : RecipeInput)
    (s' : Store) (h : recipeUpdateCall s rid inp = .ok s') :
    (s'.ingredientRows.filter (fun r => r.recipe == rid) =
        inp.ingredients.map (fun p => ⟨rid, p.1, p.2⟩) ∧
      s'.recipeTags.filter (fun p => p.1 == rid) = inp.tags.map (fun t => (rid, t))) ∧
    (∀ inp2 s'', recipeUpdateCall s' rid inp2 = .ok s'' →
      s''.ingredientRows.filter (fun r => r.recipe == rid) =
          inp2.ingredients.map (fun p => ⟨rid, p.1, p.2⟩) ∧
        s''.recipeTags.filter (fun p => p.1 == rid) = inp2.tags.map (fun t => (rid, t))) :=
  ⟨recipeUpdateCall_ok_assoc s rid inp s' h,
   fun inp2 s'' h2 => recipeUpdateCall_ok_assoc s' rid inp2 s'' h2⟩

theorem recipe_update_replaces_associations_witness :
    ((storeAfterUpdateCall sampleStore 1 sampleInput1).ingredientRows.filter
          (fun r => r.recipe == 1) =
        sampleInput1.ingredients.map (fun p => ⟨1, p.1, p.2⟩) ∧
      (storeAfterUpdateCall sampleStore 1 sampleInput1).recipeTags.filter
          (fun p => p.1 == 1) =
        sampleInput1.tags.map (fun t => (1, t))) ∧
    ((storeAfterUpdateCall (storeAfterUpdateCall sampleStore 1 sampleInput1) 1
            sampleInput2).ingredientRows.filter (fun r => r.recipe == 1) =
        sampleInput2.ingredients.map (fun p => ⟨1, p.1, p.2⟩) ∧
      (storeAfterUpdateCall (storeAfterUpdateCall sampleStore 1 sampleInput1) 1
            sampleInput2).recipeTags.filter (fun p => p.1 == 1) =
        sampleInput2.tags.map (fun t => (1, t))) :=
  ⟨(recipe_update_replaces_associations sampleStore 1 sampleInput1
      (storeAfterUpdateCall sampleStore 1 sampleInput1) (by decide)).1,
   (recipe_update_replaces_associations sampleStore 1 sampleInput1
      (storeAfterUpdateCall sampleStore 1 sampleInput1) (by decide)).2
     sampleInput2
     (storeAfterUpdateCall (storeAfterUpdateCall sampleStore 1 sampleInput1) 1 sampleInput2)
     (by decide)⟩

/-- C2: any error outcome of the recipe update call (for example a referenced tag
that does not exist) leaves the stored associations, and the whole store,
unchanged: validation fails before any write, and a failure inside the body
aborts the enclosing `transaction.atomic()`. -/
theorem recipe_update_rollback_on_error (s : Store) (rid : Nat) (inp : RecipeInput)
    (e : ApiError) (h : recipeUpdateCall s rid inp = .error e) :
    storeAfterUpdateCall s rid inp = s := by
  unfold storeAfterUpdateCall
  rw [h]

theorem recipe_update_rollback_on_error_witness :
    recipeUpdateCall sampleStore 1 sampleBadTagInput = .error ApiError.validation ∧
      storeAfterUpdateCall sampleStore 1 sampleBadTagInput = sampleStore :=
  ⟨by decide,
   recipe_update_rollback_on_error sampleStore 1 sampleBadTagInput ApiError.validation
     (by decide)⟩

/-- C4: the create/update validation step fails with a `ValidationError` whenever
the ingredient list is empty, repeats an ingredient pk, or carries a non-positive
amount, and whenever the tag list is empty or repeats a pk; no write happens. -/
theorem recipe_validation_rejects_malformed_input (s : Store) (rid : Nat)
    (inp : RecipeInput)
    (h : inp.ingredients = [] ∨ ¬ (inp.ingredients.map Prod.fst).Nodup ∨
        (∃ p ∈ inp.ingredients, p.2 ≤ 0) ∨ inp.tags = [] ∨ ¬ inp.tags.Nodup) :
    runValidation s inp = .error ApiError.validation ∧
      storeAfterUpdateCall s rid inp = s := by
  have hval : runValidation s inp = .error ApiError.validation := by
    cases hv : runValidation s inp with
    | error e => rw [runValidation_error s inp e hv]
    | ok vd =>
      obtain ⟨-, -, hne, hnd, hamt, htne, htnd, -, -, -, -, -⟩ := runValidation_ok s inp vd hv
      rcases h with h | h | ⟨p, hp, hple⟩ | h | h
      · exact absurd h hne
      · exact absurd hnd h
      · have := hamt p hp; omega
      · exact absurd h htne
      · exact absurd htnd h
  refine ⟨hval, ?_⟩
  cases hrec : lookupRecipe s rid with
  | none => simp [storeAfterUpdateCall, recipeUpdateCall, hrec]
  | some r => simp [storeAfterUpdateCall, recipeUpdateCall, hrec, hval]

theorem recipe_validation_rejects_malformed_input_witness :
    ¬ (sampleDupInput.ingredients.map Prod.fst).Nodup ∧
      runValidation sampleStore sampleDupInput = .error ApiError.validation ∧
      storeAfterUpdateCall sampleStore 1 sampleDupInput = sampleStore :=
  ⟨by decide,
   recipe_validation_rejects_malformed_input sampleStore 1 sampleDupInput
     (Or.inr (Or.inl (by decide)))⟩

/-- C5 (amended): a referenced ingredient or tag pk absent from reference data
makes validation fail with a `ValidationError` (the relational field's
`does_not_exist` failure), not with a distinguished `NotFound`. -/
theorem missing_reference_fails_with_validation_error (s : Store) (inp : RecipeInput)
    (h : (∃ p ∈ inp.ingredients, lookupIngredient s p.1 = none) ∨
        (∃ t ∈ inp.tags, lookupTag s t = none)) :
    runValidation s inp = .error ApiError.validation := by
  cases hv : runValidation s inp with
  | error e => rw [runValidation_error s inp e hv]
  | ok vd =>
    obtain ⟨hi, ht, -, -, -, -, -, -, -, -, -, -⟩ := runValidation_ok s inp vd hv
    rcases h with ⟨p, hp, hnone⟩ | ⟨t, htm, hnone⟩
    · have h2 := resolveIngredientList_ok_lookup s _ _ hi p hp
      rw [hnone] at h2
      simp at h2
    · have h2 := resolveTagList_ok_lookup s _ _ ht t htm
      rw [hnone] at h2
      simp at h2

theorem missing_reference_fails_with_validation_error_witness :
    lookupIngredient sampleStore 99 = none ∧
      runValidation sampleStore sampleMissingIngInput = .error ApiError.validation :=
  ⟨by decide,
   missing_reference_fails_with_validation_error sampleStore sampleMissingIngInput
     (Or.inl ⟨(99, 5), by decide, by decide⟩)⟩

/-- C5 counterexample: at a concrete input referencing a missing ingredient pk,
the operation reports `ValidationError`, not the `NotFound` the claim states. -/
theorem missing_reference_not_notfound_cex :
    recipeUpdateCall sampleStore 1 sampleMissingIngInput = .error ApiError.validation ∧
      recipeUpdateCall sampleStore 1 sampleMissingIngInput ≠ .error ApiError.notFound := by
  constructor
  · decide
  · decide

/-- C10: a successful update with no supplied image keeps the stored image and
overwrites name, text and cooking time (and, with an image supplied, replaces
it); tags and ingredient associations are overwritten either way. -/
theorem recipe_update_image_frame (s : Store) (rid : Nat) (inp : RecipeInput)
    (s' : Store) (r : Recipe) (h : recipeUpdateCall s rid inp = .ok s')
    (hr : lookupRecipe s rid = some r) :
    lookupRecipe s' rid = some { r with name := inp.name, text := inp.text,
                                        cooking_time := inp.cooking_time,
                                        image := (match inp.image with
                                                  | some im => im
                                                  | none => r.image) } ∧
      s'.ingredientRows.filter (fun x => x.recipe == rid) =
        inp.ingredients.map (fun p => ⟨rid, p.1, p.2⟩) ∧
      s'.recipeTags.filter (fun p => p.1 == rid) = inp.tags.map (fun t => (rid, t)) := by
  obtain ⟨vd, hv, hs⟩ := recipeUpdateCall_ok s rid inp s' h
  obtain ⟨-, -, -, -, -, -, -, -, hname, htext, hct, himg⟩ := runValidation_ok s inp vd hv
  refine ⟨?_, (recipeUpdateCall_ok_assoc s rid inp s' h).1,
    (recipeUpdateCall_ok_assoc s rid inp s' h).2⟩
  subst hs
  unfold lookupRecipe
  dsimp only
  rw [List.find?_map]
  have hpred : ((fun (x : Recipe) => x.id == rid) ∘ (fun r' =>
      if r'.id == rid then
        { r' with name := vd.name, text := vd.text, cooking_time := vd.cooking_time,
                  image := match vd.image with | some im => im | none => r'.image }
      else r')) = fun (x : Recipe) => x.id == rid := by
    funext r'
    by_cases hc : r'.id = rid
    · simp [hc]
    · simp [hc]
  rw [hpred]
  have hr' : s.recipes.find? (fun x => x.id == rid) = some r := hr
  rw [hr']
  have hrid : (r.id == rid) = true :=
    List.find?_some (p := fun x : Recipe => x.id == rid) hr'
  simp [hrid, hname, htext, hct, himg]
  intro hcon
  exact absurd (by simpa using hrid) hcon

theorem recipe_update_image_frame_witness :
    lookupRecipe (storeAfterUpdateCall sampleStore 1 sampleInput1) 1 =
        some { id := 1, author := 1, name := sampleInput1.name, text := sampleInput1.text,
               image := "recipes/images/p.png", cooking_time := sampleInput1.cooking_time } ∧
      (storeAfterUpdateCall sampleStore 1 sampleInput1).ingredientRows.filter
          (fun x => x.recipe == 1) =
        sampleInput1.ingredients.map (fun p => ⟨1, p.1, p.2⟩) ∧
      (storeAfterUpdateCall sampleStore 1 sampleInput1).recipeTags.filter
          (fun p => p.1 == 1) =
        sampleInput1.tags.map (fun t => (1, t)) :=
  recipe_update_image_frame sampleStore 1 sampleInput1
    (storeAfterUpdateCall sampleStore 1 sampleInput1)
    ⟨1, 1, "Pancakes", "Mix and fry", "recipes/images/p.png", 20⟩
    (by decide) (by decide)

/-! ### Facts about the shopping-list aggregation -/

theorem addCartIngredient_find? (acc : List CartEntry) (nm un : String) (amt : Int)
    (n : String) :
    (addCartIngredient acc nm un amt).find? (fun e => e.name == n) =
      match acc.find? (fun e => e.name == n) with
      | some e => some (if e.name == nm then { e with amount := e.amount + amt } else e)
      | none => if nm == n then some ⟨nm, un, amt⟩ else none := by
  unfold addCartIngredient
  have hpred : ((fun (e : CartEntry) => e.name == n) ∘ (fun e =>
      if e.name == nm then { e with amount := e.amount + amt } else e)) =
      fun (e : CartEntry) => e.name == n := by
    funext e
    by_cases hc : e.name = nm
    · simp [hc]
    · simp [hc]
  by_cases hin : acc.any (fun e => e.name == nm) = true
  · rw [if_pos hin, List.find?_map, hpred]
    cases hfind : acc.find? (fun e => e.name == n) with
    | some e => simp
    | none =>
      by_cases hnm : nm = n
      · exfalso
        obtain ⟨e, he, hename⟩ := List.any_eq_true.mp hin
        have h2 := List.find?_eq_none.mp hfind e he
        subst hnm
        exact h2 hename
      · simp [hnm]
  · rw [if_neg hin, List.find?_append]
    cases hfind : acc.find? (fun e => e.name == n) with
    | some e =>
      have hene : (e.name == nm) = false := by
        by_contra hc
        exact hin (List.any_eq_true.mpr ⟨e, List.mem_of_find?_eq_some hfind,
          by simpa using hc⟩)
      simp [hene]
    | none =>
      by_cases hnm : nm = n
      · simp [hnm]
      · simp [hnm]

theorem amountOf_addCartIngredient (acc : List CartEntry) (nm un : String) (amt : Int)
    (n : String) :
    amountOf (addCartIngredient acc nm un amt) n =
      amountOf acc n + (if nm == n then amt else 0) := by
  unfold amountOf
  rw [addCartIngredient_find?]
  cases hfind : acc.find? (fun e => e.name == n) with
  | some e =>
    have hen : e.name = n := by
      simpa using List.find?_some (p := fun e : CartEntry => e.name == n) hfind
    by_cases hnm : nm = n
    · subst hnm
      simp [hen]
    · have h1 : (e.name == nm) = false := by
        rw [hen]
        simpa using Ne.symm hnm
      have h2 : (nm == n) = false := by simp [hnm]
      simp [h1, h2]
  | none =>
    by_cases hnm : nm = n
    · simp [hnm]
    · simp [hnm]

theorem hasName_addCartIngredient (acc : List CartEntry) (nm un : String) (amt : Int)
    (n : String) :
    hasName (addCartIngredient acc nm un amt) n = (hasName acc n || (nm == n)) := by
  unfold hasName addCartIngredient
  have hpred : ((fun (e : CartEntry) => e.name == n) ∘ (fun e =>
      if e.name == nm then { e with amount := e.amount + amt } else e)) =
      fun (e : CartEntry) => e.name == n := by
    funext e
    by_cases hc : e.name = nm
    · simp [hc]
    · simp [hc]
  by_cases hin : acc.any (fun e => e.name == nm) = true
  · rw [if_pos hin, List.any_map, hpred]
    by_cases hnm : nm = n
    · subst hnm
      simp [hin]
    · simp [hnm]
  · rw [if_neg hin, List.any_append]
    simp

theorem amountOf_mergeFold (rows : List IngredientInRecipe) (rid : Nat) (n : String)
    (l : List Ingredient) (acc : List CartEntry) :
    amountOf (l.foldl (fun acc ing =>
        addCartIngredient acc ing.name ing.measurement_unit (rowAmount rows rid ing.id))
      acc) n = amountOf acc n + ingListSum rows rid n l := by
  induction l generalizing acc with
  | nil => simp [ingListSum]
  | cons ing rest ih =>
    rw [List.foldl_cons, ih, amountOf_addCartIngredient, ingListSum, Int.add_assoc]

theorem hasName_mergeFold (rows : List IngredientInRecipe) (rid : Nat) (n : String)
    (l : List Ingredient) (acc : List CartEntry) :
    hasName (l.foldl (fun acc ing =>
        addCartIngredient acc ing.name ing.measurement_unit (rowAmount rows rid ing.id))
      acc) n = (hasName acc n || l.any (fun ing => ing.name == n)) := by
  induction l generalizing acc with
  | nil => simp
  | cons ing rest ih =>
    rw [List.foldl_cons, ih, hasName_addCartIngredient, List.any_cons, Bool.or_assoc]

theorem rowAmount_of_mem (rows : List IngredientInRecipe) (huniq : RowsUnique rows)
    (r : IngredientInRecipe) (hr : r ∈ rows) (rid : Nat) (hrid : r.recipe = rid) :
    rowAmount rows rid r.ingredient = r.amount := by
  unfold rowAmount
  cases hf : rows.find? (fun x => x.recipe == rid && x.ingredient == r.ingredient) with
  | none =>
    exfalso
    exact absurd (by simp [hrid] : (r.recipe == rid && r.ingredient == r.ingredient) = true)
      (List.find?_eq_none.mp hf r hr)
  | some r' =>
    have hp := List.find?_some
      (p := fun x : IngredientInRecipe => x.recipe == rid && x.ingredient == r.ingredient) hf
    simp only [Bool.and_eq_true, beq_iff_eq] at hp
    have hmem := List.mem_of_find?_eq_some hf
    have : r' = r := huniq r' hmem r hr (by omega) hp.2
    rw [this]

theorem ingListSum_filterMap (rows : List IngredientInRecipe) (ings : List Ingredient)
    (rid : Nat) (n : String) (huniq : RowsUnique rows) (frows : List IngredientInRecipe)
    (hsub : ∀ r ∈ frows, r ∈ rows ∧ r.recipe = rid) :
    ingListSum rows rid n
        (frows.filterMap (fun r => ings.find? (fun x => x.id == r.ingredient))) =
      ((frows.filter (fun r => rowHasName ings r n)).map (fun r => r.amount)).sum := by
  induction frows with
  | nil => simp [ingListSum]
  | cons r rest ih =>
    have hr := hsub r (List.mem_cons_self r rest)
    have hrest : ∀ x ∈ rest, x ∈ rows ∧ x.recipe = rid :=
      fun x hx => hsub x (List.mem_cons_of_mem r hx)
    cases hf : ings.find? (fun x => x.id == r.ingredient) with
    | none =>
      simp only [List.filterMap_cons, hf]
      have hrhn : rowHasName ings r n = false := by
        unfold rowHasName
        rw [hf]
      rw [List.filter_cons_of_neg (by simp [hrhn])]
      exact ih hrest
    | some ing =>
      simp only [List.filterMap_cons, hf]
      have hid : ing.id = r.ingredient := by
        simpa using List.find?_some (p := fun x : Ingredient => x.id == r.ingredient) hf
      have hamt : rowAmount rows rid ing.id = r.amount := by
        rw [hid]
        exact rowAmount_of_mem rows huniq r hr.1 rid hr.2
      have hrhn : rowHasName ings r n = (ing.name == n) := by
        unfold rowHasName
        rw [hf]
      rw [ingListSum, hamt, ih hrest]
      by_cases hn : (ing.name == n) = true
      · rw [List.filter_cons_of_pos (by simp [hrhn, hn])]
        simp [hn]
      · rw [List.filter_cons_of_neg (by simp [hrhn]; simpa using hn)]
        simp only [Bool.not_eq_true] at hn
        simp [hn]

theorem any_name_filterMap (ings : List Ingredient) (n : String)
    (frows : List IngredientInRecipe) :
    (frows.filterMap (fun r => ings.find? (fun x => x.id == r.ingredient))).any
        (fun ing => ing.name == n) =
      frows.any (fun r => rowHasName ings r n) := by
  induction frows with
  | nil => simp
  | cons r rest ih =>
    cases hf : ings.find? (fun x => x.id == r.ingredient) with
    | none =>
      simp only [List.filterMap_cons, hf]
      rw [ih, List.any_cons]
      have hrhn : rowHasName ings r n = false := by
        unfold rowHasName
        rw [hf]
      rw [hrhn]
      simp
    | some ing =>
      simp only [List.filterMap_cons, hf]
      rw [List.any_cons, List.any_cons, ih]
      have hrhn : rowHasName ings r n = (ing.name == n) := by
        unfold rowHasName
        rw [hf]
      rw [hrhn]

theorem amountOf_mergeRecipe (rows : List IngredientInRecipe) (ings : List Ingredient)
    (acc : List CartEntry) (rid : Nat) (n : String) (huniq : RowsUnique rows) :
    amountOf (mergeRecipe rows ings acc rid) n =
      amountOf acc n + recipeNameSum rows ings rid n := by
  unfold mergeRecipe recipeIngredientObjs recipeNameSum
  rw [amountOf_mergeFold]
  congr 1
  exact ingListSum_filterMap rows ings rid n huniq _
    (fun r hr => ⟨List.mem_of_mem_filter hr, by simpa using List.of_mem_filter hr⟩)

theorem hasName_mergeRecipe (rows : List IngredientInRecipe) (ings : List Ingredient)
    (acc : List CartEntry) (rid : Nat) (n : String) :
    hasName (mergeRecipe rows ings acc rid) n =
      (hasName acc n ||
        (rows.filter (fun r => r.recipe == rid)).any (fun r => rowHasName ings r n)) := by
  unfold mergeRecipe recipeIngredientObjs
  rw [hasName_mergeFold, any_name_filterMap]

theorem amountOf_aggFold (rows : List IngredientInRecipe) (ings : List Ingredient)
    (n : String) (huniq : RowsUnique rows) (items : List (Nat × Nat))
    (acc : List CartEntry) :
    amountOf (items.foldl (fun acc item => mergeRecipe rows ings acc item.2) acc) n =
      amountOf acc n + (items.map (fun item => recipeNameSum rows ings item.2 n)).sum := by
  induction items generalizing acc with
  | nil => simp
  | cons item rest ih =>
    rw [List.foldl_cons, ih, amountOf_mergeRecipe rows ings acc item.2 n huniq,
      List.map_cons, List.sum_cons, Int.add_assoc]

theorem hasName_aggFold (rows : List IngredientInRecipe) (ings : List Ingredient)
    (n : String) (items : List (Nat × Nat)) (acc : List CartEntry) :
    hasName (items.foldl (fun acc item => mergeRecipe rows ings acc item.2) acc) n =
      (hasName acc n || items.any (fun item =>
        (rows.filter (fun r => r.recipe == item.2)).any (fun r => rowHasName ings r n))) := by
  induction items generalizing acc with
  | nil => simp
  | cons item rest ih =>
    rw [List.foldl_cons, ih, hasName_mergeRecipe, List.any_cons, Bool.or_assoc]

/-! ### Claim theorems: shopping-list aggregator -/

/-- C3: for each ingredient name, the aggregation holds exactly the integer sum
of the through-row amounts of the user's cart recipes under that name, and a
name appears in the output iff some cart recipe uses it (no zero-amount lines
for unused ingredients). -/
theorem shopping_list_exact_sums (s : Store) (u : Nat) (n : String)
    (huniq : RowsUnique s.ingredientRows) :
    amountOf (buildShoppingList s u) n =
        cartNameSum s.cart s.ingredientRows s.ingredients u n ∧
      hasName (buildShoppingList s u) n =
        (s.cart.filter (fun p => p.1 == u)).any (fun item =>
          (s.ingredientRows.filter (fun r => r.recipe == item.2)).any
            (fun r => rowHasName s.ingredients r n)) := by
  unfold buildShoppingList aggregateCart cartNameSum
  constructor
  · rw [amountOf_aggFold s.ingredientRows s.ingredients n huniq]
    simp [amountOf]
  · rw [hasName_aggFold]
    simp [hasName]

theorem shopping_list_exact_sums_witness :
    RowsUnique flourStore.ingredientRows ∧
      amountOf (buildShoppingList flourStore 7) "Flour" =
        cartNameSum flourStore.cart flourStore.ingredientRows flourStore.ingredients
          7 "Flour" ∧
      buildShoppingList flourStore 7 = [⟨"Flour", "g", 350⟩] ∧
      hasName (buildShoppingList flourStore 7) "Sugar" = false :=
  ⟨by simp only [RowsUnique]; decide,
   (shopping_list_exact_sums flourStore 7 "Flour" (by simp only [RowsUnique]; decide)).1,
   by decide, by decide⟩

/-- C6: the entry order of the aggregation is a function of the order in which
the querysets hand over their rows.  `ShoppingCart.objects.filter(user=user)`
and `recipe.ingredients.all()` carry no `order_by` and their models no
`Meta.ordering`, so the database may legally return the same rows in either
order on consecutive calls; iterating the same set of cart rows in its two
possible orders yields the same entries in different orders.  The stored data
therefore does not determine the output order, and the code adds no sort that
would make it stable across calls. -/
theorem aggregation_order_sensitivity :
    orderStoreB.cart.Perm orderStoreA.cart ∧
      orderStoreB.ingredientRows = orderStoreA.ingredientRows ∧
      orderStoreB.ingredients = orderStoreA.ingredients ∧
      (buildShoppingList orderStoreA 7).Perm (buildShoppingList orderStoreB 7) ∧
      buildShoppingList orderStoreA 7 ≠ buildShoppingList orderStoreB 7 := by
  refine ⟨List.Perm.swap _ _ _, rfl, rfl, ?_, by decide⟩
  have hA : buildShoppingList orderStoreA 7 =
      [⟨"Flour", "g", 200⟩, ⟨"Sugar", "g", 150⟩] := by decide
  have hB : buildShoppingList orderStoreB 7 =
      [⟨"Sugar", "g", 150⟩, ⟨"Flour", "g", 200⟩] := by decide
  rw [hA, hB]
  exact List.Perm.swap _ _ _

/-- C7 (amended): with an empty cart the aggregation loop yields the empty
sequence, but the endpoint short-circuits to a 404 "empty cart" response instead
of returning an empty rendering. -/
theorem empty_cart_aggregation (s : Store) (u : Nat)
    (h : s.cart.filter (fun p => p.1 == u) = []) :
    buildShoppingList s u = [] ∧
      download_shopping_cart s u = .notFoundResp "Ваш список покупок пуст" := by
  constructor
  · unfold buildShoppingList aggregateCart
    rw [h]
    rfl
  · unfold download_shopping_cart
    rw [h]
    rfl

theorem empty_cart_aggregation_witness :
    sampleStore.cart.filter (fun p => p.1 == 1) = [] ∧
      buildShoppingList sampleStore 1 = [] ∧
      download_shopping_cart sampleStore 1 = .notFoundResp "Ваш список покупок пуст" :=
  ⟨by decide,
   (empty_cart_aggregation sampleStore 1 (by decide)).1,
   (empty_cart_aggregation sampleStore 1 (by decide)).2⟩

/-- C7 counterexample: user 1 of `sampleStore` is a valid user with an empty
cart, yet the download operation returns the 404 response, not the rendering of
an empty sequence. -/
theorem empty_cart_not_found_cex :
    download_shopping_cart sampleStore 1 = .notFoundResp "Ваш список покупок пуст" ∧
      download_shopping_cart sampleStore 1 ≠ .fileResp (shoppingListText []) := by
  refine ⟨by decide, by decide⟩

theorem intercalate_go_spec (sep : String) (l : List String) :
    ∀ acc, String.intercalate.go acc sep l =
      acc ++ (match l with
        | [] => ""
        | _ :: _ => sep ++ String.intercalate sep l) := by
  induction l with
  | nil =>
    intro acc
    simp [String.intercalate.go]
  | cons a as ih =>
    intro acc
    have hstep : String.intercalate.go acc sep (a :: as) =
        String.intercalate.go (acc ++ sep ++ a) sep as := rfl
    rw [hstep, ih]
    cases as with
    | nil =>
      simp [String.intercalate, String.intercalate.go, String.append_assoc]
    | cons b bs =>
      have hic : String.intercalate sep (a :: b :: bs) =
          String.intercalate.go a sep (b :: bs) := rfl
      rw [hic, ih a]
      simp [String.append_assoc]

/-- C8: the rendered shopping list has exactly one line per entry, in the form
`name - amount unit`, the lines separated (not terminated) by a newline: nothing
follows the last entry. -/
theorem shopping_list_rendering (e : CartEntry) (rest : List CartEntry) :
    shoppingListText (e :: rest) =
      entryLine e ++ (match rest with
        | [] => ""
        | _ :: _ => "\n" ++ shoppingListText rest) := by
  unfold shoppingListText
  rw [List.map_cons]
  have hic : String.intercalate "\n" (entryLine e :: rest.map entryLine) =
      String.intercalate.go (entryLine e) "\n" (rest.map entryLine) := rfl
  rw [hic, intercalate_go_spec "\n" (rest.map entryLine) (entryLine e)]
  cases rest with
  | nil => rfl
  | cons b bs => rfl

/-! ### Claim theorems: subscriptions -/

theorem subscribe_ok (s : Store) (uid aid : Nat) (s' : Store)
    (h : subscribe s uid aid = .ok s') :
    aid ∈ s.users ∧ uid ≠ aid ∧ (uid, aid) ∉ s.subscriptions ∧
      s' = { s with subscriptions := s.subscriptions ++ [(uid, aid)] } := by
  unfold subscribe subscribeValidate at h
  cases hf : s.users.find? (fun x => x == aid) with
  | none => simp [hf] at h
  | some a =>
    have ha : a = aid := by
      simpa using List.find?_some (p := fun x : Nat => x == aid) hf
    have hmem : a ∈ s.users := List.mem_of_find?_eq_some hf
    simp only [hf] at h
    split at h
    · exact Except.noConfusion h
    · rename_i xv uv hval
      injection h with h2
      rw [ha] at hmem
      split at hval
      · exact Except.noConfusion hval
      · rename_i hau
        split at hval
        · exact Except.noConfusion hval
        · rename_i hdup
          refine ⟨hmem, fun heq => hau (by simp [heq, ha]), ?_, h2.symm⟩
          intro hc
          exact hdup (List.any_eq_true.mpr ⟨(uid, aid), hc, by simp⟩)

theorem unsubscribe_ok (s : Store) (uid aid : Nat) (s' : Store)
    (h : unsubscribe s uid aid = .ok s') :
    s' = { s with subscriptions :=
        s.subscriptions.filter (fun p => !(p.1 == uid && p.2 == aid)) } := by
  unfold unsubscribe at h
  cases hf : s.users.find? (fun x => x == aid) with
  | none => simp [hf] at h
  | some a =>
    simp only [hf] at h
    split at h
    · injection h with h2
      exact h2.symm
    · exact Except.noConfusion h

/-- C9: every store reachable through the subscription write boundary has at
most one Subscription row per (subscriber, author) pair and no self-subscription
row; the subscribe operation rejects a self-subscription and a duplicate
subscription with a `ValidationError`. -/
theorem subscription_invariant_and_rejections (s : Store) (hreach : SubReachable s) :
    SubscriptionInvariant s ∧
      (∀ uid, uid ∈ s.users → subscribe s uid uid = .error ApiError.validation) ∧
      (∀ uid aid, aid ∈ s.users → (uid, aid) ∈ s.subscriptions →
        subscribe s uid aid = .error ApiError.validation) := by
  refine ⟨?_, ?_, ?_⟩
  · induction hreach with
    | init s h =>
      refine ⟨by rw [h]; exact List.nodup_nil, ?_⟩
      intro p hp
      rw [h] at hp
      cases hp
    | subscribeStep s s' uid aid hre hok ih =>
      obtain ⟨hmem, hne, hnot, hs'⟩ := subscribe_ok s uid aid s' hok
      subst hs'
      obtain ⟨ihn, ihs⟩ := ih
      constructor
      · refine List.Nodup.append ihn (List.nodup_singleton _) ?_
        intro x hx hx'
        rw [List.mem_singleton] at hx'
        subst hx'
        exact hnot hx
      · intro p hp
        rcases List.mem_append.mp hp with hp | hp
        · exact ihs p hp
        · rw [List.mem_singleton] at hp
          subst hp
          exact hne
    | unsubscribeStep s s' uid aid hre hok ih =>
      have hs' := unsubscribe_ok s uid aid s' hok
      subst hs'
      obtain ⟨ihn, ihs⟩ := ih
      constructor
      · exact ihn.filter _
      · intro p hp
        exact ihs p (List.mem_of_mem_filter hp)
    | frame s s' hre hsub ih =>
      obtain ⟨ihn, ihs⟩ := ih
      refine ⟨by rw [hsub]; exact ihn, ?_⟩
      intro p hp
      rw [hsub] at hp
      exact ihs p hp
  · intro uid hu
    unfold subscribe subscribeValidate
    cases hf : s.users.find? (fun x => x == uid) with
    | none =>
      exfalso
      have h2 : (s.users.find? (fun x => x == uid)).isSome :=
        List.find?_isSome.mpr ⟨uid, hu, by simp⟩
      rw [hf] at h2
      simp at h2
    | some a =>
      have ha : a = uid := by
        simpa using List.find?_some (p := fun x : Nat => x == uid) hf
      subst ha
      simp
  · intro uid aid hmem hsub
    unfold subscribe subscribeValidate
    cases hf : s.users.find? (fun x => x == aid) with
    | none =>
      exfalso
      have h2 : (s.users.find? (fun x => x == aid)).isSome :=
        List.find?_isSome.mpr ⟨aid, hmem, by simp⟩
      rw [hf] at h2
      simp at h2
    | some a =>
      have ha : a = aid := by
        simpa using List.find?_some (p := fun x : Nat => x == aid) hf
      rw [ha]
      by_cases hau : aid = uid
      · simp [hau]
      · simp [hau, hsub]

theorem subscription_invariant_and_rejections_witness :
    SubscriptionInvariant subStore1 ∧
      subscribe subStore1 1 1 = .error ApiError.validation ∧
      subscribe subStore1 1 2 = .error ApiError.validation :=
  ⟨(subscription_invariant_and_rejections subStore1
      (SubReachable.subscribeStep subStore subStore1 1 2
        (SubReachable.init subStore rfl) (by decide))).1,
   (subscription_invariant_and_rejections subStore1
      (SubReachable.subscribeStep subStore subStore1 1 2
        (SubReachable.init subStore rfl) (by decide))).2.1 1 (by decide),
   (subscription_invariant_and_rejections subStore1
      (SubReachable.subscribeStep subStore subStore1 1 2
        (SubReachable.init subStore rfl) (by decide))).2.2 1 2 (by decide) (by decide)⟩

end Foodgram
